import Mathlib

/-!
Verification of the IEDB loading/filtering/aggregation pipeline
(`epitopes/iedb.py`) against its natural-language specification.

The pandas dataframe is embedded as a list of `Record`s (one per CSV row);
a nullable column cell is an `Option`.  Each pandas mask computation is
embedded as a boolean predicate on a record, and `df[mask]` as a
`List.filterMap` that also carries out the in-place rewrite of the
`Epitope Linear Sequence` column performed by `_load_dataframe`.
-/

namespace Epitopes

/-- One row of an IEDB assay CSV.  Every column can hold a null (NaN). -/
structure Record where
  epitope : Option String            -- column 'Epitope Linear Sequence'
  organism : Option String           -- column 'Host Organism Name'
  mhcAllele : Option String          -- column 'MHC Allele Name'
  qualitativeMeasure : Option String -- column 'Qualitative Measure'
  assayGroup : Option String         -- column 'Assay Group'
deriving DecidableEq, Repr

/-- The keyword criteria threaded through `_load_dataframe`.
`hla_type` / `exclude_hla_type` are regex patterns used only through
`Series.str.contains`; they are embedded by their match predicate.
`reduced_alphabet` is the Python dict `letter -> value`, embedded as a
total function (the source looks each character up in the dict). -/
structure Criteria where
  human : Bool := true
  mhc_class : Option Int := none
  hla_type : Option (String → Bool) := none
  exclude_hla_type : Option (String → Bool) := none
  peptide_length : Option Int := none
  assay_group : Option String := none
  nrows : Option Nat := none
  reduced_alphabet : Option (Char → Nat) := none

/-- `mhc1_pattern = 'Class I,|HLA-[A-C]([0-9]|\*)'` matched at the head of a
character list. -/
def isMhc1Here : List Char → Bool
  | 'C' :: 'l' :: 'a' :: 's' :: 's' :: ' ' :: 'I' :: ',' :: _ => true
  | 'H' :: 'L' :: 'A' :: '-' :: c :: d :: _ =>
      (c == 'A' || c == 'B' || c == 'C') && (d.isDigit || d == '*')
  | _ => false

/-- `mhc2_pattern = "Class II,|HLA-D(P|M|O|Q|R)"` matched at the head of a
character list. -/
def isMhc2Here : List Char → Bool
  | 'C' :: 'l' :: 'a' :: 's' :: 's' :: ' ' :: 'I' :: 'I' :: ',' :: _ => true
  | 'H' :: 'L' :: 'A' :: '-' :: 'D' :: c :: _ =>
      c == 'P' || c == 'M' || c == 'O' || c == 'Q' || c == 'R'
  | _ => false

/-- Regex search: does the pattern match at some position of the list? -/
def anySuffix (p : List Char → Bool) : List Char → Bool
  | [] => p []
  | c :: rest => p (c :: rest) || anySuffix p rest

/-- `mhc.str.contains(mhc1_pattern, na=False)` for one cell. -/
def mhc1Mask (a : Option String) : Bool :=
  a.elim false (fun s => anySuffix isMhc1Here s.data)

/-- `mhc.str.contains(mhc2_pattern, na=False)` for one cell. -/
def mhc2Mask (a : Option String) : Bool :=
  a.elim false (fun s => anySuffix isMhc2Here s.data)

/-- `str.startswith`: the pattern is a prefix of the character list. -/
def strStartsWith (s pat : String) : Bool := pat.data.isPrefixOf s.data

/-- `human_mask = organism.str.startswith('Homo sapiens', na=False)
| mhc.str.startswith("HLA", na=False)` for one record. -/
def humanMask (r : Record) : Bool :=
  (r.organism.elim false (fun s => strStartsWith s "Homo sapiens")) ||
  (r.mhcAllele.elim false (fun s => strStartsWith s "HLA"))

/-- `Series.str.upper()` on one cell: per-character uppercase. -/
def str_upper (s : String) : String := String.mk (s.data.map Char.toUpper)

/-- The `transform` closure of `_load_dataframe`:
`''.join([chr(48 + reduced_alphabet[char]) for char in s])`. -/
def applyReducedAlphabet (m : Char → Nat) (s : String) : String :=
  String.mk (s.data.map (fun c => Char.ofNat (48 + m c)))

/-- Lines 74-78: uppercase the epitope cell, then remap it if
`reduced_alphabet` was given.  A null cell propagates as null
(`Series.str.upper` maps NaN to NaN). -/
def transformEpitope (c : Criteria) (e : Option String) : Option String :=
  match c.reduced_alphabet with
  | none => e.map str_upper
  | some m => (e.map str_upper).map (applyReducedAlphabet m)

/-- The 20 standard amino-acid letters. -/
def standardAminoAcids : List Char :=
  ['A','C','D','E','F','G','H','I','K','L','M','N','P','Q','R','S','T','V','W','Y']

/-- Modelled from the spec: `bad_amino_acids` is imported from `common`,
which is not part of the sources; per the spec the "bad amino acids" set is
the complement of the 20 standard amino-acid letters, checked via a
substring/char-class match, so a sequence is flagged exactly when some
character lies outside the standard alphabet. -/
def containsBadAminoAcid (s : String) : Bool :=
  s.data.any (fun c => !(standardAminoAcids.contains c))

/-- The full filter mask of `_load_dataframe` evaluated on one record
(lines 80-113), with the epitope cell already transformed. -/
def keepRecord (c : Criteria) (r : Record) : Bool :=
  -- has_epitope_seq = ~(bad_epitope_seq | null_epitope_seq)
  (match transformEpitope c r.epitope with
   | none => false
   | some s => !(containsBadAminoAcid s))
  && (!c.human || humanMask r)
  && (c.mhc_class != some 1 || mhc1Mask r.mhcAllele)
  && (c.mhc_class != some 2 || mhc2Mask r.mhcAllele)
  -- `if assay_group:` - the empty string is falsy in Python
  && (match c.assay_group with
      | none => true
      | some a => if a = "" then true else r.assayGroup == some a)
  && (match c.hla_type with
      | none => true
      | some p => r.mhcAllele.elim false p)
  && (match c.exclude_hla_type with
      | none => true
      | some p => !(r.mhcAllele.elim false p))
  -- `if peptide_length:` - 0 is falsy; NaN length compares unequal
  && (match c.peptide_length with
      | none => true
      | some n => if n = 0 then true
          else (transformEpitope c r.epitope).elim false (fun s => (s.data.length : Int) == n))

/-- `df['Epitope Linear Sequence'] = epitopes; ...; return df[mask]`:
keep the matching rows, with the epitope column rewritten to its
transformed value. -/
def filterRecords (records : List Record) (c : Criteria) : List Record :=
  records.filterMap (fun r =>
    if keepRecord c r then some { r with epitope := transformEpitope c r.epitope } else none)

/-- `_load_dataframe`: read at most `nrows` rows, filter them.
`assert peptide_length > 0` fires only inside `if peptide_length:`
(so `peptide_length = 0` is falsy and skips both the assertion and the
length filter); a negative length raises `AssertionError`. -/
def load_dataframe (records : List Record) (c : Criteria) : Except String (List Record) :=
  let df := match c.nrows with | none => records | some n => records.take n
  match c.peptide_length with
  | some n => if n < 0 then .error "AssertionError" else .ok (filterRecords df c)
  | none => .ok (filterRecords df c)

/-! ## `_group_epitopes` -/

/-- A groupby key: the epitope string, paired with the allele when
`group_by_allele` is set (pandas drops rows whose group key is null). -/
abbrev GroupKey := String × Option String

/-- The group key of one record, `none` when pandas would drop the row
from the grouping (null epitope, or null allele under `group_by_allele`). -/
def recordKey (group_by_allele : Bool) (r : Record) : Option GroupKey :=
  match r.epitope with
  | none => none
  | some e =>
    if group_by_allele then
      match r.mhcAllele with
      | none => none
      | some a => some (e, some a)
    else some (e, none)

/-- The partition of the dataframe belonging to one group key. -/
def groupOf (group_by_allele : Bool) (rs : List Record) (k : GroupKey) : List Record :=
  rs.filter (fun r => recordKey group_by_allele r == some k)

/-- `pos_mask = measure.str.startswith('Positive').astype('bool')` for one
cell.  `str.startswith` (no `na=`) leaves NaN in place, and
`astype('bool')` coerces NaN to `True`, so a null measure counts as
positive. -/
def positiveMask (m : Option String) : Bool :=
  match m with
  | none => true
  | some s => strStartsWith s "Positive"

/-- A measure cell that literally starts with "Positive" (null is not
counted); the notion the spec describes. -/
def startsWithPositive (m : Option String) : Bool :=
  m.elim false (fun s => strStartsWith s "Positive")

/-- `groups.mean()` for one group key: the fraction of rows of the
partition whose `pos_mask` entry is true. -/
def groupFraction (group_by_allele : Bool) (rs : List Record) (k : GroupKey) : ℚ :=
  (((groupOf group_by_allele rs k).filter
      (fun r => positiveMask r.qualitativeMeasure)).length : ℚ) /
  ((groupOf group_by_allele rs k).length : ℚ)

/-- All groups with their mean, before any `min_count` filtering: the keys
in order of first appearance (pandas sorts group keys; only the set of
groups is at issue here), each with its positive fraction. -/
def group_epitopes_all (rs : List Record) (group_by_allele : Bool) :
    List (GroupKey × ℚ) :=
  ((rs.filterMap (recordKey group_by_allele)).dedup).map
    (fun k => (k, groupFraction group_by_allele rs k))

/-- `_group_epitopes`: group, take means, and under `if min_count:`
(falsy at 0) keep only groups with `counts >= min_count`. -/
def group_epitopes (rs : List Record) (group_by_allele : Bool) (min_count : Int) :
    List (GroupKey × ℚ) :=
  if min_count ≠ 0 then
    (group_epitopes_all rs group_by_allele).filter
      (fun p => min_count ≤ ((groupOf group_by_allele rs p.1).length : Int))
  else group_epitopes_all rs group_by_allele

/-! ## Loader facade -/

/-- `load_tcell`: `_load_dataframe` on the T-cell CSV; the facade forwards
every criterion except `human`, which keeps its default `True`. -/
def load_tcell (records : List Record) (c : Criteria) : Except String (List Record) :=
  load_dataframe records { c with human := true }

/-- `load_mhc`: `_load_dataframe` on the MHC CSV with the same forwarding. -/
def load_mhc (records : List Record) (c : Criteria) : Except String (List Record) :=
  load_dataframe records { c with human := true }

/-- `load_tcell_values`: its body's first statement calls
`load_tcell_dataframe(...)`, a name defined neither in the module (the raw
loader is named `load_tcell`) nor in any of its imports, so every call
raises `NameError` before any filtering or grouping happens. -/
def load_tcell_values (records : List Record) (c : Criteria)
    (group_by_allele : Bool) (min_count : Int) :
    Except String (List (GroupKey × ℚ)) :=
  let _ := records
  let _ := c
  let _ := group_by_allele
  let _ := min_count
  .error "NameError: global name load_tcell_dataframe is not defined"

/-- The composition the spec describes for `load_tcell_values`: thread the
criteria through the record filter on the T-cell source, then aggregate. -/
def load_tcell_values_spec (records : List Record) (c : Criteria)
    (group_by_allele : Bool) (min_count : Int) :
    Except String (List (GroupKey × ℚ)) :=
  (load_tcell records c).map (fun df => group_epitopes df group_by_allele min_count)

/-- `load_mhc_values`: filter the MHC source, then `_group_epitopes`. -/
def load_mhc_values (records : List Record) (c : Criteria)
    (group_by_allele : Bool) (min_count : Int) :
    Except String (List (GroupKey × ℚ)) :=
  (load_mhc records c).map (fun df => group_epitopes df group_by_allele min_count)

/-! ## `split_classes` (ClassSplitter) -/

/-- The `noisy_labels` policy: Python `None` is `exclude`. -/
inductive NoisyLabels where
  | exclude
  | majority
  | positive
  | negative
deriving DecidableEq, Repr

/-- Modelled from the spec: `split_classes` is imported from `common`,
which is not part of the sources.  Per the spec, a fraction of exactly 1
is positive and exactly 0 negative; a fraction strictly between is noisy
and resolved by the policy: `exclude` drops it, `majority` assigns by
fraction with the tie at 1/2 broken toward negative, `positive` and
`negative` send every noisy epitope to that side.  This is the
positive-side test. -/
def isPositiveLabel (p : NoisyLabels) (f : ℚ) : Bool :=
  if f = 1 then true
  else if f = 0 then false
  else match p with
    | .exclude => false
    | .majority => decide ((1 : ℚ)/2 < f)
    | .positive => true
    | .negative => false

/-- Modelled from the spec: the negative-side test of `split_classes`
(see `isPositiveLabel`). -/
def isNegativeLabel (p : NoisyLabels) (f : ℚ) : Bool :=
  if f = 1 then false
  else if f = 0 then true
  else match p with
    | .exclude => false
    | .majority => decide (f ≤ (1 : ℚ)/2)
    | .positive => false
    | .negative => true

/-- Modelled from the spec: `split_classes` turns an epitope→fraction
table into the (positive, negative) pair of epitope sets. -/
def split_classes (values : List (String × ℚ)) (noisy_labels : NoisyLabels) :
    List String × List String :=
  ((values.filter (fun p => isPositiveLabel noisy_labels p.2)).map Prod.fst,
   (values.filter (fun p => isNegativeLabel noisy_labels p.2)).map Prod.fst)

/-! ## `load_tcell_vs_mhc` join (DatasetJoiner) -/

/-- The union of the epitope keys of the two aggregated tables, the index
of `pd.DataFrame({mhc, tcell})`. -/
def joinKeys (tcell mhc : List (String × ℚ)) : List String :=
  ((tcell.map Prod.fst) ++ (mhc.map Prod.fst)).dedup

/-- Lines 513-515 of `load_tcell_vs_mhc`: outer-align both tables on the
epitope key and keep the rows where neither side is null, pairing each
retained epitope with its two fractions. -/
def load_tcell_vs_mhc_join (tcell mhc : List (String × ℚ)) :
    List (String × ℚ × ℚ) :=
  (joinKeys tcell mhc).filterMap (fun e =>
    match tcell.lookup e, mhc.lookup e with
    | some t, some m => some (e, t, m)
    | _, _ => none)

/-! ## Comparison variant and concrete rows used by the theorems -/

/-- The claim's comparison point for the remap/length-filter order: the
same filter as `keepRecord`, except that `peptide_length` is measured on
the pre-remap (uppercased) sequence instead of the remapped one. -/
def keepRecordLengthPreRemap (c : Criteria) (r : Record) : Bool :=
  (match transformEpitope c r.epitope with
   | none => false
   | some s => !(containsBadAminoAcid s))
  && (!c.human || humanMask r)
  && (c.mhc_class != some 1 || mhc1Mask r.mhcAllele)
  && (c.mhc_class != some 2 || mhc2Mask r.mhcAllele)
  && (match c.assay_group with
      | none => true
      | some a => if a = "" then true else r.assayGroup == some a)
  && (match c.hla_type with
      | none => true
      | some p => r.mhcAllele.elim false p)
  && (match c.exclude_hla_type with
      | none => true
      | some p => !(r.mhcAllele.elim false p))
  && (match c.peptide_length with
      | none => true
      | some n => if n = 0 then true
          else (r.epitope.map str_upper).elim false (fun s => (s.data.length : Int) == n))

/-- `filterRecords` with the length filter applied before the remap. -/
def filterRecordsLengthPreRemap (records : List Record) (c : Criteria) : List Record :=
  records.filterMap (fun r =>
    if keepRecordLengthPreRemap c r then
      some { r with epitope := transformEpitope c r.epitope } else none)

/-- A human-restricted record whose epitope cell has length 5 and passes
every filter: used to exhibit that `peptide_length = 0` is accepted. -/
def pepLenRecord : Record :=
  { epitope := some "ACDEF", organism := some "Homo sapiens",
    mhcAllele := none, qualitativeMeasure := some "Positive",
    assayGroup := none }

/-- A valid human T-cell row, epitope `SIINFEKL`, one positive measure. -/
def tcellRecord : Record :=
  { epitope := some "SIINFEKL", organism := some "Homo sapiens",
    mhcAllele := some "HLA-A*02:01", qualitativeMeasure := some "Positive",
    assayGroup := some "ELISPOT" }

/-- A row whose qualitative-measure cell is null: pandas coerces the
NaN produced by `str.startswith` to `True` under `astype(bool)`. -/
def nullMeasureRecord : Record :=
  { epitope := some "AAA", organism := none, mhcAllele := none,
    qualitativeMeasure := none, assayGroup := none }

/-! ## Helper lemmas -/

theorem applyReducedAlphabet_data_length (m : Char → Nat) (s : String) :
    (applyReducedAlphabet m s).data.length = s.data.length := by
  unfold applyReducedAlphabet
  exact List.length_map s.data _

theorem str_upper_data_length (s : String) :
    (str_upper s).data.length = s.data.length := by
  unfold str_upper
  exact List.length_map s.data _

/-- `transformEpitope` never changes whether the cell is null. -/
theorem transformEpitope_isSome (c : Criteria) (e : Option String) :
    (transformEpitope c e).isSome = e.isSome := by
  unfold transformEpitope
  cases c.reduced_alphabet <;> cases e <;> rfl

/-- `transformEpitope` is length-preserving on non-null cells. -/
theorem transformEpitope_length (c : Criteria) (s : String) :
    ∃ t, transformEpitope c (some s) = some t ∧ t.data.length = s.data.length := by
  unfold transformEpitope
  cases h : c.reduced_alphabet with
  | none => exact ⟨str_upper s, rfl, str_upper_data_length s⟩
  | some m =>
    refine ⟨applyReducedAlphabet m (str_upper s), rfl, ?_⟩
    rw [applyReducedAlphabet_data_length, str_upper_data_length]

theorem lookup_mem {l : List (String × ℚ)} {a : String} {b : ℚ}
    (h : l.lookup a = some b) : (a, b) ∈ l := by
  induction l with
  | nil => simp [List.lookup] at h
  | cons x t ih =>
    rw [List.lookup] at h
    cases hx : (a == x.1) with
    | true =>
      rw [hx] at h
      simp only at h
      have ha : a = x.1 := eq_of_beq hx
      have hb : x.2 = b := Option.some.inj h
      have : (a, b) = x := by
        rw [ha, ← hb]
      rw [this]
      exact List.mem_cons_self _ _
    | false =>
      rw [hx] at h
      simp only at h
      exact List.mem_cons_of_mem _ (ih h)

theorem mem_lookup_of_nodup {l : List (String × ℚ)} {a : String} {b : ℚ}
    (hn : (l.map Prod.fst).Nodup) (h : (a, b) ∈ l) : l.lookup a = some b := by
  induction l with
  | nil => simp at h
  | cons x t ih =>
    rw [List.map_cons, List.nodup_cons] at hn
    rcases List.mem_cons.mp h with h1 | h1
    · subst h1
      simp [List.lookup]
    · have hne : a ≠ x.1 := by
        intro he
        exact hn.1 (he ▸ List.mem_map_of_mem Prod.fst h1)
      rw [List.lookup, beq_false_of_ne hne]
      simp only
      exact ih hn.2 h1

theorem nodup_key_val_eq {l : List (String × ℚ)} {a : String} {b b' : ℚ}
    (hn : (l.map Prod.fst).Nodup) (h : (a, b) ∈ l) (h' : (a, b') ∈ l) : b = b' := by
  have e1 := mem_lookup_of_nodup hn h
  have e2 := mem_lookup_of_nodup hn h'
  rw [e1] at e2
  exact Option.some.inj e2

/-! ## Claim theorems -/

/-- C5: the reduced-alphabet remap is length-preserving, and because the
remap is applied to the epitope column before the filter masks are
evaluated, measuring `peptide_length` on the remapped sequence selects
exactly the records that measuring it on the pre-remap (uppercased)
sequence selects. -/
theorem c5_remap_length_invariant (m : Char → Nat) (s : String)
    (rs : List Record) (c : Criteria) (hval : ∀ r ∈ rs, r.epitope ≠ none) :
    (applyReducedAlphabet m s).data.length = s.data.length ∧
    filterRecordsLengthPreRemap rs c = filterRecords rs c := by
  refine ⟨applyReducedAlphabet_data_length m s, ?_⟩
  unfold filterRecordsLengthPreRemap filterRecords
  apply List.filterMap_congr
  intro r _
  have hkeep : keepRecordLengthPreRemap c r = keepRecord c r := by
    unfold keepRecordLengthPreRemap keepRecord
    cases hpl : c.peptide_length with
    | none => rfl
    | some n =>
      by_cases hn : n = 0
      · simp [hn]
      · cases he : r.epitope with
        | none =>
          have h1 : transformEpitope c none = none := by
            unfold transformEpitope
            cases c.reduced_alphabet <;> rfl
          simp [he, h1, hn]
        | some s' =>
          obtain ⟨t, ht, hlen⟩ := transformEpitope_length c s'
          have h2 : (str_upper s').data.length = t.data.length := by
            rw [hlen, str_upper_data_length]
          have h3 : (str_upper s').length = t.length := h2
          simp [he, ht, hn, h3]
  rw [hkeep]

/-- C5, witness for `c5_remap_length_invariant`: a two-letter reduced
alphabet with a length-3 restriction. -/
theorem c5_remap_length_invariant_witness :
    (applyReducedAlphabet (fun _ => 1) "ACD").data.length = ("ACD" : String).data.length ∧
    filterRecordsLengthPreRemap [pepLenRecord]
        { peptide_length := some 3, reduced_alphabet := some (fun _ => 1) } =
      filterRecords [pepLenRecord]
        { peptide_length := some 3, reduced_alphabet := some (fun _ => 1) } :=
  c5_remap_length_invariant (fun _ => 1) "ACD" [pepLenRecord]
    { peptide_length := some 3, reduced_alphabet := some (fun _ => 1) }
    (by intro r hr; rw [List.mem_singleton] at hr; rw [hr]; simp [pepLenRecord])

/-- C10: with no reduced alphabet, the filter uppercases the epitope
before the validity check and every other criterion: two records equal
except for the letter case of their epitope are kept or dropped together,
and the row a kept record contributes carries the uppercased sequence, so
validity, length filtering and downstream grouping treat them
identically. -/
theorem c10_uppercase_before_checks (c : Criteria) (r1 r2 : Record) (rs : List Record)
    (hra : c.reduced_alphabet = none)
    (hep : r1.epitope.map str_upper = r2.epitope.map str_upper)
    (ho : r1.organism = r2.organism) (hm : r1.mhcAllele = r2.mhcAllele)
    (hq : r1.qualitativeMeasure = r2.qualitativeMeasure)
    (ha : r1.assayGroup = r2.assayGroup) :
    keepRecord c r1 = keepRecord c r2 ∧
    filterRecords (r1 :: rs) c =
      (if keepRecord c r2 then [{ r2 with epitope := r2.epitope.map str_upper }] else [])
        ++ filterRecords rs c := by
  have htr : ∀ r : Record, transformEpitope c r.epitope = r.epitope.map str_upper := by
    intro r
    unfold transformEpitope
    rw [hra]
  have ht12 : transformEpitope c r1.epitope = transformEpitope c r2.epitope := by
    rw [htr, htr, hep]
  have hkeep : keepRecord c r1 = keepRecord c r2 := by
    unfold keepRecord
    rw [ht12]
    unfold humanMask
    rw [ho, hm, ha]
  have hrow : ({ r1 with epitope := transformEpitope c r1.epitope } : Record) =
      { r2 with epitope := r2.epitope.map str_upper } := by
    rw [ht12, htr]
    cases r1
    cases r2
    simp_all
  refine ⟨hkeep, ?_⟩
  unfold filterRecords
  rw [List.filterMap_cons]
  cases hk : keepRecord c r2 with
  | false => simp [hkeep.trans hk]
  | true => simp [hkeep.trans hk, hrow]

/-- C10, witness for `c10_uppercase_before_checks`: a lowercase and an
uppercase spelling of the same epitope. -/
theorem c10_uppercase_before_checks_witness :
    keepRecord {} { tcellRecord with epitope := some "siinfekl" } =
      keepRecord {} tcellRecord ∧
    filterRecords [{ tcellRecord with epitope := some "siinfekl" }] {} =
      (if keepRecord {} tcellRecord then
        [{ tcellRecord with epitope := tcellRecord.epitope.map str_upper }] else [])
        ++ filterRecords [] {} :=
  c10_uppercase_before_checks {} { tcellRecord with epitope := some "siinfekl" }
    tcellRecord [] rfl (by decide) rfl rfl rfl rfl

/-- C3, counterexample: the claim says every call with `peptide_length ≤ 0`
fails fast before any record is processed; but `peptide_length = 0` is
falsy in Python, so the assertion is never reached, no error is raised,
and the record data is filtered and returned normally. -/
theorem c3_zero_length_not_rejected :
    load_dataframe [pepLenRecord] { peptide_length := some 0 } =
      Except.ok [pepLenRecord] := rfl

/-- C3, amended: a call with `peptide_length < 0` fails with an
`AssertionError` (raised from `_load_dataframe` after the CSV is read),
while `peptide_length = 0` is treated as "no length restriction": it
raises nothing and behaves exactly like `peptide_length = None`. -/
theorem c3_negative_length_rejected (rs : List Record) (c : Criteria) (n : Int)
    (h1 : c.peptide_length = some n) (h2 : n < 0) :
    load_dataframe rs c = Except.error "AssertionError" ∧
    load_dataframe rs { c with peptide_length := some 0 } =
      load_dataframe rs { c with peptide_length := none } := by
  constructor
  · unfold load_dataframe
    rw [h1]
    simp [h2]
  · unfold load_dataframe
    have hkeep : ∀ r, keepRecord { c with peptide_length := some 0 } r =
        keepRecord { c with peptide_length := none } r := by
      intro r
      unfold keepRecord
      rfl
    have hfilter : ∀ df, filterRecords df { c with peptide_length := some 0 } =
        filterRecords df { c with peptide_length := none } := by
      intro df
      unfold filterRecords
      apply List.filterMap_congr
      intro r _
      rw [hkeep r]
      rfl
    simp [hfilter]

/-- C3, witness for `c3_negative_length_rejected`. -/
theorem c3_negative_length_rejected_witness :
    load_dataframe [] { peptide_length := some (-1) } = Except.error "AssertionError" ∧
    load_dataframe ([] : List Record) { peptide_length := some 0 } =
      load_dataframe [] { peptide_length := none } :=
  c3_negative_length_rejected [] { peptide_length := some (-1) } (-1) rfl (by decide)

/-- C4: with no reduced alphabet, a record whose epitope cell is null, or
whose uppercased sequence contains a character outside the 20 standard
amino-acid letters, contributes nothing to the filter's output whatever
the other criteria are, and the call still succeeds (the record is
dropped silently, not raised). -/
theorem c4_invalid_records_dropped (c : Criteria) (r : Record) (rs : List Record)
    (hra : c.reduced_alphabet = none)
    (hbad : r.epitope = none ∨
      ∃ s, r.epitope = some s ∧ containsBadAminoAcid (str_upper s) = true)
    (hpl : ∀ n, c.peptide_length = some n → 0 ≤ n) :
    filterRecords (r :: rs) c = filterRecords rs c ∧
    ∃ l, load_dataframe (r :: rs) c = Except.ok l := by
  have he : transformEpitope c r.epitope = r.epitope.map str_upper := by
    unfold transformEpitope
    rw [hra]
  have hkeep : keepRecord c r = false := by
    unfold keepRecord
    rw [he]
    rcases hbad with hnull | ⟨s, hs, hbadseq⟩
    · rw [hnull]
      simp
    · rw [hs]
      simp [hbadseq]
  constructor
  · unfold filterRecords
    rw [List.filterMap_cons]
    simp [hkeep]
  · unfold load_dataframe
    cases hn : c.peptide_length with
    | none => exact ⟨_, rfl⟩
    | some n =>
      have : ¬ n < 0 := not_lt.mpr (hpl n hn)
      simp [this]

/-- C4, witness for `c4_invalid_records_dropped`: a record whose epitope
contains the digit `1` (outside the amino-acid alphabet) is dropped and
no error is raised. -/
theorem c4_invalid_records_dropped_witness :
    filterRecords
        [{ epitope := some "aB1", organism := some "Homo sapiens", mhcAllele := none,
           qualitativeMeasure := some "Positive", assayGroup := none }] {} =
      filterRecords [] {} ∧
    ∃ l, load_dataframe
        [{ epitope := some "aB1", organism := some "Homo sapiens", mhcAllele := none,
           qualitativeMeasure := some "Positive", assayGroup := none }] {} =
      Except.ok l :=
  c4_invalid_records_dropped {} _ [] rfl
    (Or.inr ⟨"aB1", rfl, by decide⟩) (fun n h => by simp at h)

/-- C9: raising `min_count` by one only removes groups, and `min_count = 0`
drops no group at all (`if min_count:` is falsy, so the count filter is
skipped). -/
theorem c9_min_count_monotone (rs : List Record) (gba : Bool) (k : Nat) :
    group_epitopes rs gba ((k : Int) + 1) ⊆ group_epitopes rs gba (k : Int) ∧
    group_epitopes rs gba 0 = group_epitopes_all rs gba := by
  constructor
  · intro p hp
    unfold group_epitopes at hp ⊢
    have hk1 : ((k : Int) + 1) ≠ 0 := by omega
    rw [if_pos hk1] at hp
    rcases List.mem_filter.mp hp with ⟨hmem, hle⟩
    have hle' : (k : Int) + 1 ≤ ((groupOf gba rs p.1).length : Int) :=
      of_decide_eq_true hle
    by_cases hk0 : (k : Int) = 0
    · rw [if_neg (by omega)]
      exact hmem
    · rw [if_pos hk0]
      exact List.mem_filter.mpr ⟨hmem, decide_eq_true (by omega)⟩
  · unfold group_epitopes
    simp

/-- C8, counterexample: the claim says the positive fraction times the
partition size equals the number of records whose qualitative measure
starts with "Positive"; a partition made of one record with a null
measure has fraction 1 (pandas coerces the NaN to True), yet zero
"Positive"-prefixed records, and 1 × 1 ≠ 0. -/
theorem c8_null_measure_counted_positive :
    group_epitopes [nullMeasureRecord] false 0 = [(("AAA", none), 1)] ∧
    ((groupOf false [nullMeasureRecord] ("AAA", none)).filter
        (fun r => startsWithPositive r.qualitativeMeasure)).length = 0 ∧
    (1 : ℚ) * ((groupOf false [nullMeasureRecord] ("AAA", none)).length : ℚ) ≠
      (((groupOf false [nullMeasureRecord] ("AAA", none)).filter
        (fun r => startsWithPositive r.qualitativeMeasure)).length : ℚ) := by
  have hgrp : groupOf false [nullMeasureRecord] ("AAA", none) = [nullMeasureRecord] := rfl
  have hfil : (List.filter (fun r => positiveMask r.qualitativeMeasure)
      [nullMeasureRecord]) = [nullMeasureRecord] := rfl
  have hfrac : groupFraction false [nullMeasureRecord] ("AAA", none) = 1 := by
    unfold groupFraction
    rw [hgrp, hfil]
    norm_num
  have hfil2 : (List.filter (fun r => startsWithPositive r.qualitativeMeasure)
      [nullMeasureRecord]) = [] := rfl
  refine ⟨?_, rfl, ?_⟩
  · have h1 : group_epitopes [nullMeasureRecord] false 0 =
        [(("AAA", none), groupFraction false [nullMeasureRecord] ("AAA", none))] := rfl
    rw [h1, hfrac]
  · rw [hgrp, hfil2]
    norm_num

/-- C8, amended: for every partition the positive fraction lies in [0,1],
and fraction × size equals the number of records whose qualitative
measure is null or starts with "Positive" (`str.startswith` leaves NaN
in place and `astype(bool)` coerces it to True); when no measure in the
partition is null, this is exactly the "Positive"-prefixed count the
claim describes. -/
theorem c8_fraction_of_group (rs : List Record) (gba : Bool) (mc : Int)
    (k : GroupKey) (v : ℚ) (h : (k, v) ∈ group_epitopes rs gba mc) :
    0 ≤ v ∧ v ≤ 1 ∧
    v * ((groupOf gba rs k).length : ℚ) =
      (((groupOf gba rs k).filter (fun r => positiveMask r.qualitativeMeasure)).length : ℚ) ∧
    ((∀ r ∈ groupOf gba rs k, r.qualitativeMeasure ≠ none) →
      v * ((groupOf gba rs k).length : ℚ) =
        (((groupOf gba rs k).filter
            (fun r => startsWithPositive r.qualitativeMeasure)).length : ℚ)) := by
  have hall : (k, v) ∈ group_epitopes_all rs gba := by
    unfold group_epitopes at h
    by_cases hmc : mc ≠ 0
    · rw [if_pos hmc] at h
      exact List.mem_of_mem_filter h
    · rw [if_neg hmc] at h
      exact h
  unfold group_epitopes_all at hall
  rcases List.mem_map.mp hall with ⟨k', hk', heq⟩
  have hfst : k' = k := (Prod.ext_iff.mp heq).1
  have hv : groupFraction gba rs k' = v := (Prod.ext_iff.mp heq).2
  subst hfst
  rcases List.mem_filterMap.mp (List.mem_dedup.mp hk') with ⟨r, hr, hrk⟩
  have hrg : r ∈ groupOf gba rs k' := by
    apply List.mem_filter.mpr
    refine ⟨hr, ?_⟩
    rw [hrk]
    exact beq_self_eq_true _
  have hlen : 0 < (groupOf gba rs k').length := List.length_pos.mpr (List.ne_nil_of_mem hrg)
  have hnq : (0 : ℚ) < ((groupOf gba rs k').length : ℚ) := by exact_mod_cast hlen
  have hcle : ((groupOf gba rs k').filter
      (fun r => positiveMask r.qualitativeMeasure)).length ≤ (groupOf gba rs k').length :=
    List.length_filter_le _ _
  have hv' : v = (((groupOf gba rs k').filter
        (fun r => positiveMask r.qualitativeMeasure)).length : ℚ) /
      ((groupOf gba rs k').length : ℚ) := hv.symm
  refine ⟨?_, ?_, ?_, ?_⟩
  · rw [hv']
    positivity
  · rw [hv']
    exact (div_le_one hnq).mpr (by exact_mod_cast hcle)
  · rw [hv']
    exact div_mul_cancel₀ _ (ne_of_gt hnq)
  · intro hnn
    have hsame : (groupOf gba rs k').filter (fun r => positiveMask r.qualitativeMeasure) =
        (groupOf gba rs k').filter (fun r => startsWithPositive r.qualitativeMeasure) := by
      apply List.filter_congr
      intro r' hr'
      cases hqm : r'.qualitativeMeasure with
      | none => exact absurd hqm (hnn r' hr')
      | some s =>
        unfold positiveMask startsWithPositive
        rfl
    rw [hv', hsame]
    exact div_mul_cancel₀ _ (ne_of_gt hnq)

/-- C8, witness for `c8_fraction_of_group`: the single-row null-measure
partition has fraction 1 and the stated products. -/
theorem c8_fraction_of_group_witness :
    0 ≤ (1 : ℚ) ∧ (1 : ℚ) ≤ 1 ∧
    (1 : ℚ) * ((groupOf false [nullMeasureRecord] ("AAA", none)).length : ℚ) =
      (((groupOf false [nullMeasureRecord] ("AAA", none)).filter
          (fun r => positiveMask r.qualitativeMeasure)).length : ℚ) ∧
    ((∀ r ∈ groupOf false [nullMeasureRecord] ("AAA", none), r.qualitativeMeasure ≠ none) →
      (1 : ℚ) * ((groupOf false [nullMeasureRecord] ("AAA", none)).length : ℚ) =
        (((groupOf false [nullMeasureRecord] ("AAA", none)).filter
            (fun r => startsWithPositive r.qualitativeMeasure)).length : ℚ)) :=
  c8_fraction_of_group [nullMeasureRecord] false 0 ("AAA", none) 1 (by
    have hgrp : groupOf false [nullMeasureRecord] ("AAA", none) = [nullMeasureRecord] := rfl
    have hfil : (List.filter (fun r => positiveMask r.qualitativeMeasure)
        [nullMeasureRecord]) = [nullMeasureRecord] := rfl
    have hfrac : groupFraction false [nullMeasureRecord] ("AAA", none) = 1 := by
      unfold groupFraction
      rw [hgrp, hfil]
      norm_num
    have h1 : group_epitopes [nullMeasureRecord] false 0 =
        [(("AAA", none), groupFraction false [nullMeasureRecord] ("AAA", none))] := rfl
    rw [h1, hfrac]
    exact List.mem_singleton.mpr rfl)

/-- No fraction is labelled positive and negative at once, under any
noisy-label policy. -/
theorem not_pos_and_neg_label (p : NoisyLabels) (f : ℚ) :
    ¬(isPositiveLabel p f = true ∧ isNegativeLabel p f = true) := by
  unfold isPositiveLabel isNegativeLabel
  by_cases h1 : f = 1
  · simp [h1]
  · by_cases h0 : f = 0
    · simp [h1, h0]
    · rw [if_neg h1, if_neg h0, if_neg h1, if_neg h0]
      cases p with
      | exclude => simp
      | majority =>
        simp only [decide_eq_true_eq]
        intro hcon
        exact absurd hcon.1 (not_lt.mpr hcon.2)
      | positive => simp
      | negative => simp

/-- With the `exclude` (Python `None`) policy a strictly-noisy fraction
gets neither label. -/
theorem exclude_noisy_unlabelled (f : ℚ) (h0 : 0 < f) (h1 : f < 1) :
    isPositiveLabel .exclude f = false ∧ isNegativeLabel .exclude f = false := by
  unfold isPositiveLabel isNegativeLabel
  rw [if_neg (ne_of_lt h1), if_neg (ne_of_gt h0), if_neg (ne_of_lt h1), if_neg (ne_of_gt h0)]
  exact ⟨rfl, rfl⟩

/-- C6: the class split returns disjoint positive/negative sets under
every noisy-label policy, and with the `None` policy every epitope whose
fraction is strictly between 0 and 1 lands in neither set. -/
theorem c6_split_classes_disjoint (values : List (String × ℚ)) (p : NoisyLabels)
    (hn : (values.map Prod.fst).Nodup) :
    (∀ e, e ∈ (split_classes values p).1 → e ∉ (split_classes values p).2) ∧
    (∀ e f, (e, f) ∈ values → 0 < f → f < 1 →
      e ∉ (split_classes values NoisyLabels.exclude).1 ∧
      e ∉ (split_classes values NoisyLabels.exclude).2) := by
  constructor
  · intro e hpos hneg
    unfold split_classes at hpos hneg
    rcases List.mem_map.mp hpos with ⟨⟨e1, f1⟩, hmem1, he1⟩
    rcases List.mem_map.mp hneg with ⟨⟨e2, f2⟩, hmem2, he2⟩
    rcases List.mem_filter.mp hmem1 with ⟨hv1, hl1⟩
    rcases List.mem_filter.mp hmem2 with ⟨hv2, hl2⟩
    simp only at he1 he2
    subst he1
    subst he2
    have hf : f1 = f2 := nodup_key_val_eq hn hv1 hv2
    subst hf
    exact not_pos_and_neg_label p f1 ⟨hl1, hl2⟩
  · intro e f hmem h0 h1
    obtain ⟨hpf, hnf⟩ := exclude_noisy_unlabelled f h0 h1
    constructor
    · intro hpos
      unfold split_classes at hpos
      rcases List.mem_map.mp hpos with ⟨⟨e1, f1⟩, hmem1, he1⟩
      rcases List.mem_filter.mp hmem1 with ⟨hv1, hl1⟩
      simp only at he1
      subst he1
      have hf : f1 = f := nodup_key_val_eq hn hv1 hmem
      rw [hf, hpf] at hl1
      exact Bool.false_ne_true hl1
    · intro hneg
      unfold split_classes at hneg
      rcases List.mem_map.mp hneg with ⟨⟨e1, f1⟩, hmem1, he1⟩
      rcases List.mem_filter.mp hmem1 with ⟨hv1, hl1⟩
      simp only at he1
      subst he1
      have hf : f1 = f := nodup_key_val_eq hn hv1 hmem
      rw [hf, hnf] at hl1
      exact Bool.false_ne_true hl1

/-- C6, witness for `c6_split_classes_disjoint`: a table with a noisy,
a positive and a negative epitope. -/
theorem c6_split_classes_disjoint_witness :
    (∀ e, e ∈ (split_classes [("A", (1:ℚ)/2), ("B", 1), ("C", 0)] NoisyLabels.exclude).1 →
      e ∉ (split_classes [("A", (1:ℚ)/2), ("B", 1), ("C", 0)] NoisyLabels.exclude).2) ∧
    (∀ e f, (e, f) ∈ [("A", (1:ℚ)/2), ("B", 1), ("C", 0)] → 0 < f → f < 1 →
      e ∉ (split_classes [("A", (1:ℚ)/2), ("B", 1), ("C", 0)] NoisyLabels.exclude).1 ∧
      e ∉ (split_classes [("A", (1:ℚ)/2), ("B", 1), ("C", 0)] NoisyLabels.exclude).2) :=
  c6_split_classes_disjoint [("A", (1:ℚ)/2), ("B", 1), ("C", 0)] NoisyLabels.exclude
    (by decide)

/-- C7: the joined table holds exactly the epitopes present in both
aggregated tables, each mapped to its pair of fractions; nothing is
imputed for an epitope missing from either side. -/
theorem c7_join_strict_intersection (tcell mhc : List (String × ℚ))
    (ht : (tcell.map Prod.fst).Nodup) (hm : (mhc.map Prod.fst).Nodup)
    (e : String) (t m : ℚ) :
    (e, t, m) ∈ load_tcell_vs_mhc_join tcell mhc ↔ ((e, t) ∈ tcell ∧ (e, m) ∈ mhc) := by
  unfold load_tcell_vs_mhc_join
  constructor
  · intro hmem
    rcases List.mem_filterMap.mp hmem with ⟨k, hk, hfk⟩
    cases hlt : tcell.lookup k with
    | none =>
      cases hlm : mhc.lookup k <;> rw [hlt, hlm] at hfk <;> simp at hfk
    | some t' =>
      cases hlm : mhc.lookup k with
      | none => rw [hlt, hlm] at hfk; simp at hfk
      | some m' =>
        rw [hlt, hlm] at hfk
        simp only [Option.some.injEq] at hfk
        have hke : k = e := (Prod.ext_iff.mp hfk).1
        have htm : (t', m') = (t, m) := (Prod.ext_iff.mp hfk).2
        have ht' : t' = t := (Prod.ext_iff.mp htm).1
        have hm' : m' = m := (Prod.ext_iff.mp htm).2
        subst hke
        subst ht'
        subst hm'
        exact ⟨lookup_mem hlt, lookup_mem hlm⟩
  · rintro ⟨h1, h2⟩
    apply List.mem_filterMap.mpr
    refine ⟨e, ?_, ?_⟩
    · unfold joinKeys
      apply List.mem_dedup.mpr
      exact List.mem_append_left _ (List.mem_map_of_mem Prod.fst h1)
    · rw [mem_lookup_of_nodup ht h1, mem_lookup_of_nodup hm h2]

/-- C7, witness for `c7_join_strict_intersection`: the spec's own
example, tcell = {AAAA: 1/2, BBBB: 1}, mhc = {AAAA: 1/5, CCCC: 9/10}. -/
theorem c7_join_strict_intersection_witness :
    ("AAAA", (1:ℚ)/2, (1:ℚ)/5) ∈
        load_tcell_vs_mhc_join [("AAAA", (1:ℚ)/2), ("BBBB", 1)]
          [("AAAA", (1:ℚ)/5), ("CCCC", (9:ℚ)/10)] ↔
      (("AAAA", (1:ℚ)/2) ∈ [("AAAA", (1:ℚ)/2), ("BBBB", 1)] ∧
       ("AAAA", (1:ℚ)/5) ∈ [("AAAA", (1:ℚ)/5), ("CCCC", (9:ℚ)/10)]) :=
  c7_join_strict_intersection [("AAAA", (1:ℚ)/2), ("BBBB", 1)]
    [("AAAA", (1:ℚ)/5), ("CCCC", (9:ℚ)/10)] (by decide) (by decide)
    "AAAA" ((1:ℚ)/2) ((1:ℚ)/5)

/-- C1: `load_tcell_values` never reaches the filter/aggregate pipeline:
its first statement references the undefined name `load_tcell_dataframe`,
so every call raises `NameError`, while the composition the spec
describes (filter the T-cell rows, then group) succeeds on the same
input. -/
theorem c1_load_tcell_values_name_error :
    load_tcell_values [tcellRecord] {} false 0 =
      Except.error "NameError: global name load_tcell_dataframe is not defined" ∧
    load_tcell_values_spec [tcellRecord] {} false 0 =
      Except.ok [(("SIINFEKL", none), 1)] := by
  constructor
  · rfl
  · have hdf : load_tcell [tcellRecord] {} = Except.ok [tcellRecord] := rfl
    have hgrp : groupOf false [tcellRecord] ("SIINFEKL", none) = [tcellRecord] := rfl
    have hfil : (List.filter (fun r => positiveMask r.qualitativeMeasure)
        [tcellRecord]) = [tcellRecord] := rfl
    have hfrac : groupFraction false [tcellRecord] ("SIINFEKL", none) = 1 := by
      unfold groupFraction
      rw [hgrp, hfil]
      norm_num
    have h1 : group_epitopes [tcellRecord] false 0 =
        [(("SIINFEKL", none), groupFraction false [tcellRecord] ("SIINFEKL", none))] := rfl
    show (load_tcell [tcellRecord] {}).map (fun df => group_epitopes df false 0) = _
    rw [hdf]
    show Except.ok (group_epitopes [tcellRecord] false 0) = _
    rw [h1, hfrac]

end Epitopes
